import Mathlib

/-!
Shallow embedding of the remote-buffer synchronization core of
`pkg/nuclide-remote-connection/lib/NuclideTextBuffer.js`, together with a
spec-modelled version of the ancestor-directory config cache
(`nuclide-commons/ConfigCache`, whose implementation is exercised only by a
test in this repository).

Conventions:
- JS strings are Lean `String`; JS `null`-able strings are `Option String`
  (JS `a !== b` on a string vs `null` is `≠` on `Option String`).
- The buffer object's mutable fields form the record `BufferState`.
- Asynchronous methods become pure functions taking the outcome of their
  awaited I/O as an explicit argument (`Except` for a remote read/write);
  concurrent activity during a suspension point is an explicit
  state-transformer argument.
- Emitted notifications (`emitter.emit`, `atom.notifications`,
  `atom.workspace.open`) are collected in an event list.
-/

namespace Nuclide

/-- Notifications the buffer emits to its observers / the UI layer. -/
inductive Ev where
  | didChangePath (p : String)
  | willSave (p : String)
  | didSave (p : String)
  | didConflict
  | willThrowWatchError
  | modifiedStatusChanged (b : Bool)
  | reloadText
  | saveErrorShown (p : String)
  | openUntitled (contents : String)
deriving DecidableEq, Repr

/-- The mutable fields of a `NuclideTextBuffer` (including the inherited
`TextBuffer` fields the overridden methods touch). `saveID` is the
spec's `saveGeneration`; `existsOnDisk` is the JS `_exists`. -/
structure BufferState where
  path : String
  text : String
  cachedDiskContents : Option String
  existsOnDisk : Bool
  saveID : Nat
  pendingSaveContents : Option String
  conflict : Bool
  wasModifiedBeforeRemove : Bool
  destroyed : Bool
  loaded : Bool
  hasFile : Bool
deriving DecidableEq, Repr

/-- `TextBuffer.isEmpty()`. -/
def BufferState.isEmpty (st : BufferState) : Bool := st.text = ""

/-- `_isModified()` from NuclideTextBuffer.js. -/
def isModified (st : BufferState) : Bool :=
  if !st.loaded then false
  else if st.hasFile then
    if st.existsOnDisk then decide (st.cachedDiskContents ≠ some st.text)
    else if st.wasModifiedBeforeRemove then !st.isEmpty else false
  else !st.isEmpty

/-- `setPath` from NuclideTextBuffer.js: no-op when the path is unchanged,
otherwise rebind the file (present iff the new path is nonempty) and emit
`did-change-path`. -/
def setPath (st : BufferState) (filePath : String) : BufferState × List Ev :=
  if filePath = st.path then (st, [])
  else ({ st with path := filePath, hasFile := filePath ≠ "" },
        [Ev.didChangePath filePath])

/-- The error thrown synchronously by `saveAs` on an empty path. -/
inductive SaveError where
  | invalidArgument
deriving DecidableEq, Repr

/-- Outcome of the awaited remote `file.write`: success, or failure together
with whether the buffer was destroyed while the write was outstanding
(the `catch` branch reads `this.destroyed`, which a concurrent `destroy()`
may have set during the await). -/
inductive WriteOutcome where
  | ok
  | failed (destroyedMeanwhile : Bool)
deriving DecidableEq, Repr

/-- `saveAs` from NuclideTextBuffer.js. An empty path throws before any
side effect. Otherwise: emit `will-save`, rebind the path, snapshot the
text into `pendingSaveContents`, perform the write; on success install the
snapshot as `cachedDiskContents`, bump `saveID`, clear `conflict`; on
failure show an error notification and, if the buffer was destroyed
meanwhile, open an untitled buffer seeded with the snapshot. Either way
`pendingSaveContents` is cleared afterwards. -/
def saveAs (st : BufferState) (filePath : String) (w : WriteOutcome) :
    Except SaveError (BufferState × List Ev) :=
  if filePath = "" then .error .invalidArgument
  else
    let sp := setPath st filePath
    let st1 := sp.1
    let toSaveContents := st1.text
    let st2 := { st1 with pendingSaveContents := some toSaveContents }
    match w with
    | .ok =>
        let st3 := { st2 with
          cachedDiskContents := some toSaveContents,
          saveID := st2.saveID + 1,
          conflict := false,
          pendingSaveContents := none }
        .ok (st3, Ev.willSave filePath :: sp.2 ++
          [Ev.modifiedStatusChanged false, Ev.didSave filePath])
    | .failed destroyedMeanwhile =>
        let st3 := { st2 with
          destroyed := st2.destroyed || destroyedMeanwhile,
          pendingSaveContents := none }
        let recov : List Ev :=
          if st3.destroyed then [Ev.openUntitled toSaveContents] else []
        .ok (st3, Ev.willSave filePath :: sp.2 ++ recov ++
          [Ev.saveErrorShown filePath])

/-- `updateCachedDiskContentsSync` from NuclideTextBuffer.js: unconditionally
throws; never reaches any state mutation. -/
def updateCachedDiskContentsSync (_st : BufferState) :
    Except String BufferState :=
  .error "updateCachedDiskContentsSync is not supported in NuclideTextBuffer"

/-- `updateCachedDiskContents` from NuclideTextBuffer.js: delegate to the
base refresh (which stores the freshly read contents), then set
`existsOnDisk := true`; on a read failure set `existsOnDisk := false` and
rethrow the error (returned as `some e`). -/
def updateCachedDiskContents (st : BufferState)
    (readResult : Except String String) : BufferState × Option String :=
  match readResult with
  | .ok c => ({ st with cachedDiskContents := some c, existsOnDisk := true }, none)
  | .error e => ({ st with existsOnDisk := false }, some e)

-- Diffing is O(lines^2), so don't bother for files with too many lines.
def DIFF_LINE_LIMIT : Nat := 10000

/-- `countOccurrences(haystack, '\n')` from nuclide-commons/string. -/
def countNewlines (s : String) : Nat := s.toList.count '\n'

/-- `TextBuffer.getLineCount()`: the number of rows of the buffer, which is
one more than the number of newline characters in its text. -/
def getLineCount (st : BufferState) : Nat := countNewlines st.text + 1

/-- Which branch `setTextViaDiff` took: the wholesale `setText`, or the
base class's incremental line-level diff. -/
inductive SetTextMethod where
  | fullReplace
  | diffed
deriving DecidableEq, Repr

/-- `setTextViaDiff` override from NuclideTextBuffer.js: bypass the base
class's line diff with a plain `setText` when
`getLineCount() > DIFF_LINE_LIMIT` or
`countOccurrences(newText, '\n') > DIFF_LINE_LIMIT`. Both branches leave
the buffer holding exactly `newText`; they differ only in method. -/
def setTextViaDiff (st : BufferState) (newText : String) :
    BufferState × SetTextMethod :=
  if getLineCount st > DIFF_LINE_LIMIT ∨ countNewlines newText > DIFF_LINE_LIMIT
  then ({ st with text := newText }, .fullReplace)
  else ({ st with text := newText }, .diffed)

/-- The synchronous head of the `onDidChange` handler, before the awaited
refresh: emit the modified status, and set `conflict := true` when the
buffer currently has unsaved local edits. -/
def changeStage1 (st : BufferState) : BufferState :=
  if isModified st then { st with conflict := true } else st

/-- Modelled from the spec: the base `TextBuffer.reload` used by step (e) of
change reconciliation replaces `text` with the (just refreshed, hence
present) `cachedDiskContents`. -/
def reloadText (st : BufferState) : BufferState :=
  { st with text := st.cachedDiskContents.getD st.text }

/-- The `file.onDidChange` handler from `subscribeToFile`. `g` is whatever
concurrent activity runs on the buffer during the awaited refresh (e.g. a
save completing); `readResult` is the outcome of the remote read. The
result is the post-state, the emitted events, and the error the handler
rethrows when the refresh fails. -/
def onDidChangeHandler (st0 : BufferState) (g : BufferState → BufferState)
    (readResult : Except String String) :
    BufferState × List Ev × Option String :=
  let isMod := isModified st0
  let st1 := changeStage1 st0
  let previousContents := st1.cachedDiskContents
  let previousSaveID := st1.saveID
  let r := updateCachedDiskContents (g st1) readResult
  match r.2 with
  | some e => (r.1, [Ev.modifiedStatusChanged isMod], some e)
  | none =>
    let st3 := r.1
    if st3.saveID ≠ previousSaveID ∨
        previousContents = st3.cachedDiskContents ∨
        st3.pendingSaveContents = st3.cachedDiskContents then
      ({ st3 with conflict := false }, [Ev.modifiedStatusChanged isMod], none)
    else if st3.conflict then
      (st3, [Ev.modifiedStatusChanged isMod, Ev.didConflict], none)
    else
      (reloadText st3, [Ev.modifiedStatusChanged isMod, Ev.reloadText], none)

/-- `_maybeDestroy` from NuclideTextBuffer.js. `policy` models
`shouldDestroyOnFileDelete`: `none` when the hook is absent (destroy), else
`some` of what the hook returns. Soft delete clears `conflict` and
`cachedDiskContents` and re-emits the modified status against an empty
baseline. -/
def maybeDestroy (st : BufferState) (policy : Option Bool) :
    BufferState × List Ev :=
  if policy.getD true then ({ st with destroyed := true }, [])
  else ({ st with conflict := false, cachedDiskContents := none },
        [Ev.modifiedStatusChanged (!st.isEmpty)])

/-- The `file.onDidDelete` handler from `subscribeToFile`: mark the file
gone, latch `wasModifiedBeforeRemove`; with local edits present, keep the
buffer and fire a refresh (whose read outcome is `readResult`), otherwise
resolve per destroy policy. -/
def onDidDeleteHandler (st : BufferState) (policy : Option Bool)
    (readResult : Except String String) :
    BufferState × List Ev × Option String :=
  let st1 := { st with existsOnDisk := false }
  let modified := decide (st1.cachedDiskContents ≠ some st1.text)
  let st2 := { st1 with wasModifiedBeforeRemove := modified }
  if modified then
    let r := updateCachedDiskContents st2 readResult
    (r.1, [], r.2)
  else
    let r := maybeDestroy st2 policy
    (r.1, r.2, none)

/-- The `file.onWillThrowWatchError` handler: forward, mutate nothing. -/
def onWatchErrorHandler (st : BufferState) : BufferState × List Ev :=
  (st, [Ev.willThrowWatchError])

/-- One externally triggered operation on the buffer, with the outcomes of
its awaited I/O as data. -/
inductive Op where
  | save (filePath : String) (w : WriteOutcome)
  | change (g : BufferState → BufferState) (readResult : Except String String)
  | remove (policy : Option Bool) (readResult : Except String String)
  | refresh (readResult : Except String String)
  | syncRefresh
  | rebind (filePath : String)
  | watchErr

/-- The buffer state after an operation (the state is unchanged when the
operation throws before mutating, as `saveAs` on an empty path and
`updateCachedDiskContentsSync` do). -/
def applyOp (st : BufferState) : Op → BufferState
  | .save p w =>
      match saveAs st p w with
      | .ok r => r.1
      | .error _ => st
  | .change g readResult => (onDidChangeHandler st g readResult).1
  | .remove policy readResult => (onDidDeleteHandler st policy readResult).1
  | .refresh readResult => (updateCachedDiskContents st readResult).1
  | .syncRefresh =>
      match updateCachedDiskContentsSync st with
      | .ok st1 => st1
      | .error _ => st
  | .rebind p => (setPath st p).1
  | .watchErr => (onWatchErrorHandler st).1

/-- The concurrent activity a `change` operation carries does not itself
shrink the save counter (true of every operation of the system). -/
def opSaveMono : Op → Prop
  | .change g _ => ∀ s : BufferState, s.saveID ≤ (g s).saveID
  | _ => True

/-!
## ConfigCache (nuclide-commons/ConfigCache)

The implementation is outside this repository's sources; only its test is
present. It is modelled from the spec. A directory path is its list of
components with the deepest component first, so the parent of `c :: rest`
is `rest` and `[]` is the filesystem root; an ancestor of `p` is a suffix
of `p`. `fs d` says whether directory `d` contains the marker file.
-/

/-- Modelled from the spec: the upward walk of `ConfigCache.getConfigDir`
for a start path naming a directory — return the nearest ancestor
directory (the starting directory included) containing the marker file,
or `none` when the filesystem root is passed without finding one. -/
def findConfigDir (fs : List String → Bool) :
    List String → Option (List String)
  | [] => if fs [] then some [] else none
  | c :: rest => if fs (c :: rest) then some (c :: rest) else findConfigDir fs rest

/-- Modelled from the spec: when the start path names a file, the search
begins at the file's parent directory (the path with its deepest
component dropped). -/
def getConfigDirOfFile (fs : List String → Bool) (p : List String) :
    Option (List String) :=
  findConfigDir fs p.tail

/-!
## Concrete states used by the evaluation witnesses
-/

/-- A clean, loaded buffer bound to an existing remote file. -/
def buf0 : BufferState :=
  { path := "f.txt"
    text := "disk"
    cachedDiskContents := some "disk"
    existsOnDisk := true
    saveID := 0
    pendingSaveContents := none
    conflict := false
    wasModifiedBeforeRemove := false
    destroyed := false
    loaded := true
    hasFile := true }

/-- `buf0` with unsaved local edits. -/
def bufEdited : BufferState := { buf0 with text := "local edits" }

/-- Concurrent activity during a refresh that completes one save: it bumps
the save counter. -/
def saveBump (st : BufferState) : BufferState :=
  { st with saveID := st.saveID + 1 }

/-!
## Helper lemmas
-/

theorem setPath_frame (st : BufferState) (p : String) :
    (setPath st p).1.text = st.text ∧
    (setPath st p).1.conflict = st.conflict ∧
    (setPath st p).1.cachedDiskContents = st.cachedDiskContents ∧
    (setPath st p).1.saveID = st.saveID ∧
    (setPath st p).1.destroyed = st.destroyed ∧
    (setPath st p).1.pendingSaveContents = st.pendingSaveContents := by
  unfold setPath
  split <;> simp

theorem changeStage1_frame (st : BufferState) :
    (changeStage1 st).saveID = st.saveID ∧
    (changeStage1 st).cachedDiskContents = st.cachedDiskContents ∧
    (changeStage1 st).text = st.text ∧
    (changeStage1 st).pendingSaveContents = st.pendingSaveContents := by
  unfold changeStage1
  split <;> simp

/-!
## Theorems for the claims
-/

/-- C10: `updateCachedDiskContentsSync` throws on every call and performs no
state mutation — the error result carries no successor state, so only the
asynchronous refresh path can change the buffer (`applyOp` keeps the state
fixed under `syncRefresh`). -/
theorem syncRefresh_always_throws (st : BufferState) :
    updateCachedDiskContentsSync st =
      Except.error
        "updateCachedDiskContentsSync is not supported in NuclideTextBuffer" ∧
    applyOp st Op.syncRefresh = st :=
  ⟨rfl, rfl⟩

/-- C8: a failing refresh during change reconciliation sets
`existsOnDisk := false` and rethrows the read error to the caller, leaving
`conflict` (and the rest of the state, text included) as already set by the
synchronous head of the handler; a successful refresh sets
`existsOnDisk := true` and installs the freshly read contents. -/
theorem refresh_failure_propagates (st : BufferState) :
    (∀ c : String, updateCachedDiskContents st (Except.ok c) =
      ({ st with cachedDiskContents := some c, existsOnDisk := true }, none)) ∧
    (∀ e : String, updateCachedDiskContents st (Except.error e) =
      ({ st with existsOnDisk := false }, some e)) ∧
    (∀ (e : String) (g : BufferState → BufferState),
      (onDidChangeHandler st g (Except.error e)).2.2 = some e ∧
      (onDidChangeHandler st g (Except.error e)).1 =
        { g (changeStage1 st) with existsOnDisk := false }) := by
  refine ⟨fun _ => rfl, fun _ => rfl, fun e g => ⟨?_, ?_⟩⟩ <;>
    simp [onDidChangeHandler, updateCachedDiskContents]

/-- C6: `saveAs` with an empty target path fails with the invalid-argument
error before any side effect: no write outcome is consumed, no event is
emitted, and the document state is unchanged. -/
theorem save_empty_path_invalid (st : BufferState) (w : WriteOutcome) :
    saveAs st "" w = Except.error SaveError.invalidArgument ∧
    applyOp st (Op.save "" w) = st :=
  ⟨rfl, rfl⟩

/-- A text of 10000 newline characters: its line count is 10001, which
exceeds `DIFF_LINE_LIMIT`, while its newline count equals the limit. -/
def tallText : String := String.mk (List.replicate 10000 '\n')

theorem countNewlines_tallText : countNewlines tallText = 10000 := by
  show List.count '\n' (List.replicate 10000 '\n') = 10000
  exact List.count_replicate_self '\n' 10000

/-- A buffer holding `tallText`, hence 10001 lines. -/
def tallBuf : BufferState := { buf0 with text := tallText }

/-- A buffer holding a single line of text. -/
def oneLineBuf : BufferState := { buf0 with text := "a" }

/-- A 5-line replacement text. -/
def fiveLineText : String := "l1\nl2\nl3\nl4\nl5"

theorem getLineCount_tallBuf : getLineCount tallBuf = 10001 := by
  show countNewlines tallText + 1 = 10001
  rw [countNewlines_tallText]

/-- C5 counterexample: the threshold is not applied symmetrically. An
incoming replacement of 10001 lines (10000 newline characters) exceeds the
10000-line limit, yet `setTextViaDiff` on a small buffer still takes the
line-diff branch, because the incoming side is gated on the newline count
(`countOccurrences(newText, '\n') > DIFF_LINE_LIMIT`) rather than on the
line count. -/
theorem setTextViaDiff_not_symmetric :
    countNewlines tallText + 1 = 10001 ∧
    (setTextViaDiff oneLineBuf tallText).2 = SetTextMethod.diffed := by
  constructor
  · rw [countNewlines_tallText]
  · unfold setTextViaDiff
    rw [if_neg]
    rw [countNewlines_tallText]
    show ¬(getLineCount oneLineBuf > DIFF_LINE_LIMIT ∨ 10000 > DIFF_LINE_LIMIT)
    decide

/-- C5 amended: `setTextViaDiff` bypasses diffing in favor of a wholesale
replacement exactly when the existing buffer's line count exceeds 10000 or
the incoming content's newline count exceeds 10000 (so an incoming text
needs at least 10002 lines to trigger the bypass by itself); either branch
leaves the buffer holding exactly the new text. In particular a document
with 10001 lines receiving a 5-line replacement is fully replaced, ending
with 5 lines. -/
theorem setTextViaDiff_threshold (st : BufferState) (newText : String) :
    ((setTextViaDiff st newText).2 = SetTextMethod.fullReplace ↔
      (getLineCount st > DIFF_LINE_LIMIT ∨
        countNewlines newText > DIFF_LINE_LIMIT)) ∧
    (setTextViaDiff st newText).1.text = newText ∧
    (getLineCount st = 10001 → countNewlines newText + 1 = 5 →
      (setTextViaDiff st newText).2 = SetTextMethod.fullReplace ∧
      countNewlines (setTextViaDiff st newText).1.text + 1 = 5) := by
  refine ⟨?_, ?_, ?_⟩
  · unfold setTextViaDiff
    split
    · simp [*]
    · simp [*]
  · unfold setTextViaDiff
    split <;> rfl
  · intro h10001 h5
    have hfull : (setTextViaDiff st newText).2 = SetTextMethod.fullReplace := by
      unfold setTextViaDiff
      rw [if_pos]
      left
      rw [h10001]
      decide
    refine ⟨hfull, ?_⟩
    have htext : (setTextViaDiff st newText).1.text = newText := by
      unfold setTextViaDiff
      split <;> rfl
    rw [htext, h5]

/-- Evaluation witness for the amended C5 at a concrete 10001-line buffer
and 5-line replacement. -/
theorem setTextViaDiff_threshold_witness :
    getLineCount tallBuf = 10001 ∧
    countNewlines fiveLineText + 1 = 5 ∧
    ((setTextViaDiff tallBuf fiveLineText).2 = SetTextMethod.fullReplace ∧
      countNewlines (setTextViaDiff tallBuf fiveLineText).1.text + 1 = 5) :=
  ⟨getLineCount_tallBuf, by decide,
    (setTextViaDiff_threshold tallBuf fiveLineText).2.2 getLineCount_tallBuf
      (by decide)⟩

/-- C7: when the remote write of a save fails, `conflict`,
`cachedDiskContents` and `saveID` keep their save-start values,
`pendingSaveContents` ends cleared, the error is surfaced as a user-facing
notification while `saveAs` still resolves (returns `.ok`, nothing is
thrown past the coordinator), and if the buffer was destroyed while the
write was outstanding an untitled buffer seeded with the unsaved snapshot
is opened. -/
theorem save_failure_frame (st : BufferState) (p : String) (d : Bool)
    (hp : p ≠ "") :
    ∃ st' evs, saveAs st p (WriteOutcome.failed d) = Except.ok (st', evs) ∧
      st'.conflict = st.conflict ∧
      st'.cachedDiskContents = st.cachedDiskContents ∧
      st'.saveID = st.saveID ∧
      st'.pendingSaveContents = none ∧
      st'.text = st.text ∧
      Ev.saveErrorShown p ∈ evs ∧
      ((st.destroyed || d) = true → Ev.openUntitled st.text ∈ evs) := by
  have hsp := setPath_frame st p
  unfold saveAs
  rw [if_neg hp]
  refine ⟨_, _, rfl, ?_, ?_, ?_, rfl, ?_, ?_, ?_⟩
  · simpa using hsp.2.1
  · simpa using hsp.2.2.1
  · simpa using hsp.2.2.2.1
  · simpa using hsp.1
  · simp
  · intro hd
    have hdst : (setPath st p).1.destroyed = st.destroyed := hsp.2.2.2.2.1
    have htxt : (setPath st p).1.text = st.text := hsp.1
    simp only [hdst, htxt, hd]
    simp [hd]

/-- Evaluation witness for C7: a failing save on a concrete buffer that is
destroyed while the write is outstanding. -/
theorem save_failure_frame_witness :
    ("g.txt" : String) ≠ "" ∧
    (∃ st' evs,
      saveAs bufEdited "g.txt" (WriteOutcome.failed true) =
        Except.ok (st', evs) ∧
      st'.conflict = bufEdited.conflict ∧
      st'.cachedDiskContents = bufEdited.cachedDiskContents ∧
      st'.saveID = bufEdited.saveID ∧
      st'.pendingSaveContents = none ∧
      st'.text = bufEdited.text ∧
      Ev.saveErrorShown "g.txt" ∈ evs ∧
      ((bufEdited.destroyed || true) = true →
        Ev.openUntitled bufEdited.text ∈ evs)) :=
  ⟨by decide, save_failure_frame bufEdited "g.txt" true (by decide)⟩

/-- C3: a successfully completed save leaves `cachedDiskContents` equal to
the snapshot that was written (the text at save time), `conflict` false,
`saveGeneration` bumped by exactly one, and `pendingSaveContents` absent;
and across every operation of the system (with the concurrent activity a
change reconciliation interleaves itself not shrinking the counter),
`saveGeneration` never decreases. -/
theorem save_success_postconditions :
    (∀ (st : BufferState) (p : String), p ≠ "" →
      ∃ st' evs, saveAs st p WriteOutcome.ok = Except.ok (st', evs) ∧
        st'.cachedDiskContents = some st.text ∧
        st'.conflict = false ∧
        st'.saveID = st.saveID + 1 ∧
        st'.pendingSaveContents = none) ∧
    (∀ (st : BufferState) (op : Op), opSaveMono op →
      st.saveID ≤ (applyOp st op).saveID) := by
  constructor
  · intro st p hp
    have hsp := setPath_frame st p
    unfold saveAs
    rw [if_neg hp]
    refine ⟨_, _, rfl, ?_, rfl, ?_, rfl⟩
    · simpa using hsp.1
    · simpa using hsp.2.2.2.1
  · intro st op hmono
    cases op with
    | save p w =>
        by_cases hp : p = ""
        · subst hp
          simp [applyOp, saveAs]
        · have hsp := setPath_frame st p
          cases w with
          | ok =>
              simp only [applyOp, saveAs, if_neg hp]
              simp [hsp.2.2.2.1]
          | failed d =>
              simp only [applyOp, saveAs, if_neg hp]
              simp [hsp.2.2.2.1]
    | change g r =>
        have hg : (changeStage1 st).saveID ≤ (g (changeStage1 st)).saveID :=
          hmono (changeStage1 st)
        have hst1 : (changeStage1 st).saveID = st.saveID :=
          (changeStage1_frame st).1
        rw [hst1] at hg
        cases r with
        | error e =>
            simpa [applyOp, onDidChangeHandler, updateCachedDiskContents]
              using hg
        | ok c =>
            simp only [applyOp, onDidChangeHandler, updateCachedDiskContents]
            split
            · simpa using hg
            · split
              · simpa using hg
              · simpa [reloadText] using hg

    | remove policy r =>
        cases r <;>
          · simp only [applyOp, onDidDeleteHandler, updateCachedDiskContents,
              maybeDestroy]
            split_ifs <;> simp
    | refresh r =>
        cases r <;> simp [applyOp, updateCachedDiskContents]
    | syncRefresh => simp [applyOp, updateCachedDiskContentsSync]
    | rebind p =>
        simp only [applyOp]
        rw [(setPath_frame st p).2.2.2.1]
    | watchErr => simp [applyOp, onWatchErrorHandler]

/-- Evaluation witness for C3: a successful save of a concrete edited
buffer, and the counter not decreasing under a concrete refresh. -/
theorem save_success_postconditions_witness :
    ("g.txt" : String) ≠ "" ∧
    (∃ st' evs,
      saveAs bufEdited "g.txt" WriteOutcome.ok = Except.ok (st', evs) ∧
      st'.cachedDiskContents = some bufEdited.text ∧
      st'.conflict = false ∧
      st'.saveID = bufEdited.saveID + 1 ∧
      st'.pendingSaveContents = none) ∧
    bufEdited.saveID ≤
      (applyOp bufEdited (Op.refresh (Except.ok "fresh"))).saveID :=
  ⟨by decide, save_success_postconditions.1 bufEdited "g.txt" (by decide),
    save_success_postconditions.2 bufEdited (Op.refresh (Except.ok "fresh"))
      trivial⟩

/-- C1: change reconciliation never overwrites unsaved local edits. With no
interleaved activity during the refresh, (i) the reload branch can only run
when the text equalled the cached disk contents when the notification
arrived, and (ii) when local edits exist and none of the short-circuit
checks applies (no save completed, the refreshed contents differ from the
previous contents and from any pending save), a conflict notification is
emitted and `text` is left unchanged with `conflict` still raised. -/
theorem change_never_overwrites_local_edits (st : BufferState) (c : String)
    (hl : st.loaded = true) (hf : st.hasFile = true)
    (he : st.existsOnDisk = true) :
    (Ev.reloadText ∈ (onDidChangeHandler st id (Except.ok c)).2.1 →
      st.cachedDiskContents = some st.text) ∧
    (st.cachedDiskContents ≠ some st.text →
      st.cachedDiskContents ≠ some c →
      st.pendingSaveContents ≠ some c →
      (onDidChangeHandler st id (Except.ok c)).2.1 =
        [Ev.modifiedStatusChanged true, Ev.didConflict] ∧
      (onDidChangeHandler st id (Except.ok c)).1.text = st.text ∧
      (onDidChangeHandler st id (Except.ok c)).1.conflict = true) := by
  have hmod : isModified st = decide (st.cachedDiskContents ≠ some st.text) := by
    simp [isModified, hl, hf, he]
  by_cases hdiff : st.cachedDiskContents = some st.text
  · -- No local edits at notification time: part (ii) is vacuous.
    exact ⟨fun _ => hdiff, fun h => absurd hdiff h⟩
  · -- Local edits exist: `changeStage1` raises `conflict`, so the
    -- handler can only short-circuit or emit the conflict notification.
    have hmod' : isModified st = true := by simp [hmod, hdiff]
    have hstage : changeStage1 st = { st with conflict := true } := by
      simp [changeStage1, hmod']
    constructor
    · intro hmem
      exfalso
      simp only [onDidChangeHandler, updateCachedDiskContents, id_eq,
        hstage, hmod'] at hmem
      split_ifs at hmem with h1
      · simp at hmem
      · simp at hmem
    · intro _ hprev hpend
      simp only [onDidChangeHandler, updateCachedDiskContents, id_eq,
        hstage, hmod']
      split_ifs with h1
      · exfalso
        rcases h1 with h | h | h
        · exact h rfl
        · exact hprev (by simpa using h)
        · exact hpend (by simpa using h)
      · exact ⟨rfl, rfl, rfl⟩

/-- Evaluation witness for C1: an edited concrete buffer receiving an
independent remote change gets a conflict notification and keeps its
text. -/
theorem change_never_overwrites_local_edits_witness :
    bufEdited.loaded = true ∧
    bufEdited.cachedDiskContents ≠ some bufEdited.text ∧
    bufEdited.cachedDiskContents ≠ some "remote" ∧
    bufEdited.pendingSaveContents ≠ some "remote" ∧
    ((onDidChangeHandler bufEdited id (Except.ok "remote")).2.1 =
       [Ev.modifiedStatusChanged true, Ev.didConflict] ∧
     (onDidChangeHandler bufEdited id (Except.ok "remote")).1.text =
       bufEdited.text ∧
     (onDidChangeHandler bufEdited id (Except.ok "remote")).1.conflict =
       true) :=
  ⟨rfl, by decide, by decide, by decide,
    (change_never_overwrites_local_edits bufEdited "remote" rfl rfl rfl).2
      (by decide) (by decide) (by decide)⟩

/-- C2: when a save completes during the awaited refresh of a change
reconciliation (the save counter observed after the refresh differs from
the one recorded before it), the reconciliation clears `conflict` and
stops: no conflict notification, no reload, no error, and the text is
exactly what the interleaved activity left, whatever contents the refresh
returned. -/
theorem change_save_during_read_clears_conflict (st : BufferState)
    (g : BufferState → BufferState) (c : String)
    (h : (g (changeStage1 st)).saveID ≠ (changeStage1 st).saveID) :
    (onDidChangeHandler st g (Except.ok c)).1.conflict = false ∧
    (onDidChangeHandler st g (Except.ok c)).2.1 =
      [Ev.modifiedStatusChanged (isModified st)] ∧
    Ev.didConflict ∉ (onDidChangeHandler st g (Except.ok c)).2.1 ∧
    Ev.reloadText ∉ (onDidChangeHandler st g (Except.ok c)).2.1 ∧
    (onDidChangeHandler st g (Except.ok c)).2.2 = none ∧
    (onDidChangeHandler st g (Except.ok c)).1.text =
      (g (changeStage1 st)).text := by
  simp only [onDidChangeHandler, updateCachedDiskContents]
  rw [if_pos (Or.inl h)]
  refine ⟨rfl, rfl, ?_, ?_, rfl, rfl⟩ <;> simp

/-- Evaluation witness for C2: a clean concrete buffer whose refresh is
interleaved with a completing save. -/
theorem change_save_during_read_clears_conflict_witness :
    (saveBump (changeStage1 buf0)).saveID ≠ (changeStage1 buf0).saveID ∧
    ((onDidChangeHandler buf0 saveBump (Except.ok "x")).1.conflict = false ∧
     (onDidChangeHandler buf0 saveBump (Except.ok "x")).2.1 =
       [Ev.modifiedStatusChanged (isModified buf0)] ∧
     Ev.didConflict ∉ (onDidChangeHandler buf0 saveBump (Except.ok "x")).2.1 ∧
     Ev.reloadText ∉ (onDidChangeHandler buf0 saveBump (Except.ok "x")).2.1 ∧
     (onDidChangeHandler buf0 saveBump (Except.ok "x")).2.2 = none ∧
     (onDidChangeHandler buf0 saveBump (Except.ok "x")).1.text =
       (saveBump (changeStage1 buf0)).text) :=
  ⟨by decide,
    change_save_during_read_clears_conflict buf0 saveBump "x" (by decide)⟩

/-- C4: a remote delete notification latches `wasModifiedBeforeRemove` to
whether the text differed from the cached disk contents at that moment;
with no local edits and the destroy policy applying the document is
destroyed (still marked gone from disk); with local edits present the
document survives with its text unchanged and the handler runs a refresh of
`cachedDiskContents` on the gone-from-disk, latched state, so the document
stays marked gone whenever that refresh fails. -/
theorem delete_latches_and_destroys (st : BufferState) (policy : Option Bool)
    (r : Except String String) :
    (onDidDeleteHandler st policy r).1.wasModifiedBeforeRemove =
      decide (st.cachedDiskContents ≠ some st.text) ∧
    (st.cachedDiskContents = some st.text → policy.getD true = true →
      (onDidDeleteHandler st policy r).1.destroyed = true ∧
      (onDidDeleteHandler st policy r).1.existsOnDisk = false) ∧
    (st.cachedDiskContents ≠ some st.text →
      (onDidDeleteHandler st policy r).1.text = st.text ∧
      (onDidDeleteHandler st policy r).1.destroyed = st.destroyed ∧
      (onDidDeleteHandler st policy r).1 =
        (updateCachedDiskContents
          { st with existsOnDisk := false, wasModifiedBeforeRemove := true }
          r).1 ∧
      (∀ e, r = Except.error e →
        (onDidDeleteHandler st policy r).1.existsOnDisk = false)) := by
  by_cases hdiff : st.cachedDiskContents = some st.text
  · have hmodf : decide (st.cachedDiskContents ≠ some st.text) = false := by
      simp [hdiff]
    refine ⟨?_, fun _ hpol => ?_, fun h => absurd hdiff h⟩
    · simp only [onDidDeleteHandler, maybeDestroy, hmodf, Bool.false_eq_true,
        if_false]
      split_ifs <;> simp [hmodf]
    · simp only [onDidDeleteHandler, maybeDestroy, hmodf, Bool.false_eq_true,
        if_false]
      rw [if_pos hpol]
      exact ⟨rfl, rfl⟩
  · have hmodt : decide (st.cachedDiskContents ≠ some st.text) = true := by
      simp [hdiff]
    refine ⟨?_, fun h => absurd h hdiff, fun _ => ⟨?_, ?_, ?_, ?_⟩⟩ <;>
      simp only [onDidDeleteHandler, hmodt, if_true] <;>
      cases r <;>
      simp [updateCachedDiskContents, hmodt]

/-- Evaluation witness for C4: deletion under an edited concrete buffer
whose follow-up refresh fails, and under a clean one with the default
destroy policy. -/
theorem delete_latches_and_destroys_witness :
    (bufEdited.cachedDiskContents ≠ some bufEdited.text ∧
      ((onDidDeleteHandler bufEdited none (Except.error "gone")).1.text =
          bufEdited.text ∧
        (onDidDeleteHandler bufEdited none (Except.error "gone")).1.destroyed =
          bufEdited.destroyed ∧
        (onDidDeleteHandler bufEdited none (Except.error "gone")).1 =
          (updateCachedDiskContents
            { bufEdited with
              existsOnDisk := false
              wasModifiedBeforeRemove := true } (Except.error "gone")).1 ∧
        (∀ e, (Except.error "gone" : Except String String) = Except.error e →
          (onDidDeleteHandler bufEdited none
            (Except.error "gone")).1.existsOnDisk = false))) ∧
    (buf0.cachedDiskContents = some buf0.text ∧
      ((Option.none : Option Bool).getD true = true) ∧
      ((onDidDeleteHandler buf0 none (Except.error "gone")).1.destroyed =
          true ∧
        (onDidDeleteHandler buf0 none
          (Except.error "gone")).1.existsOnDisk = false)) :=
  ⟨⟨by decide,
      (delete_latches_and_destroys bufEdited none (Except.error "gone")).2.2
        (by decide)⟩,
    ⟨rfl, rfl,
      (delete_latches_and_destroys buf0 none (Except.error "gone")).2.1
        rfl rfl⟩⟩

/-- C9: consistency of the config-directory lookup. If an ancestor `a` of
the start directory `p` holds the marker file and no directory nearer to
`p` does, then the walk from any such descendant returns `a`; and a lookup
for a path naming a file searches from the file's parent directory, hence
agrees with the lookup for the containing directory. (Ancestors are
suffixes in the deepest-component-first path representation.) -/
theorem getConfigDir_consistency :
    (∀ (fs : List String → Bool) (p a : List String),
      a <:+ p → fs a = true →
      (∀ b, a <:+ b → b <:+ p → b ≠ a → fs b = false) →
      findConfigDir fs p = some a) ∧
    (∀ (fs : List String → Bool) (n : String) (d : List String),
      getConfigDirOfFile fs (n :: d) = findConfigDir fs d) := by
  constructor
  · intro fs p
    induction p with
    | nil =>
        intro a ha hfa _
        have haz : a = [] := List.suffix_nil.mp ha
        subst haz
        simp [findConfigDir, hfa]
    | cons c rest ih =>
        intro a ha hfa hmin
        by_cases htop : fs (c :: rest) = true
        · have haeq : a = c :: rest := by
            by_contra hne
            have hfalse :=
              hmin (c :: rest) ha (List.suffix_refl _) (fun h => hne h.symm)
            rw [htop] at hfalse
            exact Bool.noConfusion hfalse
          subst haeq
          simp [findConfigDir, htop]
        · have hnetop : a ≠ c :: rest := fun h => htop (h ▸ hfa)
          have ha' : a <:+ rest := by
            rcases List.suffix_cons_iff.mp ha with h | h
            · exact absurd h hnetop
            · exact h
          have hmin' : ∀ b, a <:+ b → b <:+ rest → b ≠ a → fs b = false :=
            fun b h1 h2 h3 => hmin b h1 (h2.trans (List.suffix_cons c rest)) h3
          have htop' : fs (c :: rest) = false := by
            cases hv : fs (c :: rest)
            · rfl
            · exact absurd hv htop
          simp only [findConfigDir, htop', Bool.false_eq_true, if_false]
          exact ih a ha' hfa hmin'
  · intro fs n d
    rfl

/-- A marker-file layout holding the marker only in directory `/a`
(deepest-component-first representation: `["a"]` is `/a`, `["b", "a"]` is
`/a/b`, `["c", "b", "a"]` is `/a/b/c`). -/
def cfgFs (d : List String) : Bool := decide (d = ["a"])

/-- Evaluation witness for C9: with the marker only in `/a`, the lookups
for `/a/b/c` and `/a/b` both return `/a`, and a lookup for a file inside
`/a/b` agrees with the lookup for `/a/b` itself. -/
theorem getConfigDir_consistency_witness :
    findConfigDir cfgFs ["c", "b", "a"] = some ["a"] ∧
    findConfigDir cfgFs ["b", "a"] = some ["a"] ∧
    getConfigDirOfFile cfgFs ["f.txt", "b", "a"] =
      findConfigDir cfgFs ["b", "a"] := by
  have hmin : ∀ b : List String, ["a"] <:+ b → b <:+ ["c", "b", "a"] →
      b ≠ ["a"] → cfgFs b = false := by
    intro b hb1 hb2 hb3
    rcases List.suffix_cons_iff.mp hb2 with h | h
    · subst h; decide
    rcases List.suffix_cons_iff.mp h with h' | h'
    · subst h'; decide
    rcases List.suffix_cons_iff.mp h' with h2 | h2
    · exact absurd h2 hb3
    · have hb0 : b = [] := List.suffix_nil.mp h2
      subst hb0
      have hcontra : (["a"] : List String) = [] := List.suffix_nil.mp hb1
      exact absurd hcontra (by decide)
  have hmin2 : ∀ b : List String, ["a"] <:+ b → b <:+ ["b", "a"] →
      b ≠ ["a"] → cfgFs b = false :=
    fun b hb1 hb2 hb3 =>
      hmin b hb1 (hb2.trans (List.suffix_cons "c" ["b", "a"])) hb3
  refine ⟨?_, ?_, getConfigDir_consistency.2 cfgFs "f.txt" ["b", "a"]⟩
  · exact getConfigDir_consistency.1 cfgFs _ _ ⟨["c", "b"], rfl⟩
      (by decide) hmin
  · exact getConfigDir_consistency.1 cfgFs _ _ ⟨["b"], rfl⟩
      (by decide) hmin2

end Nuclide
